import Mathlib

/-!
Verification of the classroom monitoring loop (`classroom_monitor.py`).

The per-frame pipeline is embedded shallowly: geometry is exact rational
arithmetic, the smoothing deque is a Lean list with the Python
`deque(maxlen=30)` push discipline, the CSV store is a list of lines, and
the main loop is a recursion over a list of read events.  Fallible file
writes are embedded with `Except`.
-/

/-- An axis-aligned detection bounding box `(x1, y1, x2, y2)` in frame
pixel coordinates, as produced by `box.xyxy[0]`. -/
structure Box where
  x1 : ℚ
  y1 : ℚ
  x2 : ℚ
  y2 : ℚ
deriving DecidableEq, Repr

/-- Box center x-coordinate: `cx = (x1 + x2) / 2.0`. -/
def centerX (b : Box) : ℚ := (b.x1 + b.x2) / 2

/-- Box center y-coordinate: `cy = (y1 + y2) / 2.0`. -/
def centerY (b : Box) : ℚ := (b.y1 + b.y2) / 2

/-- The engagement heuristic of the main loop:
`in_middle_x = (w * 0.33) < cx < (w * 0.66)`,
`in_upper_y = cy < (h * 0.66)`, engaged iff `in_middle_x and in_upper_y`. -/
def classifyEngaged (w h : ℚ) (b : Box) : Bool :=
  (decide (w * 0.33 < centerX b) && decide (centerX b < w * 0.66)) &&
    decide (centerY b < h * 0.66)

/-- `engaged_count`: the number of detected boxes classified engaged. -/
def engagedCount (w h : ℚ) (boxes : List Box) : ℕ :=
  (boxes.filter (fun b => classifyEngaged w h b)).length

/-- `engagement_ratio = engaged_count / num_students if num_students > 0
else 0.0`. -/
def engagementRatioFn (engaged num : ℕ) : ℚ :=
  if 0 < num then (engaged : ℚ) / (num : ℚ) else 0

/-- The per-frame engagement value computed by the loop body from the
detected boxes. -/
def frameEngagement (w h : ℚ) (boxes : List Box) : ℚ :=
  engagementRatioFn (engagedCount w h boxes) boxes.length

/-- Claim C1: the engagement classifier returns engaged iff
`0.33*w < cx < 0.66*w` and `cy < 0.66*h` for the box center `(cx, cy)`,
with both x-bounds and the y upper bound exclusive; a center exactly at
`cx = 0.33*w` or at `cy = 0.66*h` is not engaged, and a center at
`(0.5*w, 0.5*h)` is engaged whenever `w, h > 0`. -/
theorem C1_engagement_classifier (b : Box) (w h : ℚ) (hw : 0 < w) (hh : 0 < h) :
    (classifyEngaged w h b = true ↔
      (0.33 * w < centerX b ∧ centerX b < 0.66 * w ∧ centerY b < 0.66 * h))
    ∧ (centerX b = 0.33 * w → classifyEngaged w h b = false)
    ∧ (centerY b = 0.66 * h → classifyEngaged w h b = false)
    ∧ (centerX b = 0.5 * w → centerY b = 0.5 * h → classifyEngaged w h b = true) := by
  refine ⟨?_, ?_, ?_, ?_⟩
  · simp only [classifyEngaged, Bool.and_eq_true, decide_eq_true_eq]
    constructor
    · rintro ⟨⟨h1, h2⟩, h3⟩
      exact ⟨by linarith [h1], by linarith [h2], by linarith [h3]⟩
    · rintro ⟨h1, h2, h3⟩
      exact ⟨⟨by linarith [h1], by linarith [h2]⟩, by linarith [h3]⟩
  · intro hc
    have h1 : decide (w * 0.33 < centerX b) = false := by
      simp only [decide_eq_false_iff_not]
      rw [hc]
      intro hlt
      linarith
    simp [classifyEngaged, h1]
  · intro hc
    have h3 : decide (centerY b < h * 0.66) = false := by
      simp only [decide_eq_false_iff_not]
      rw [hc]
      intro hlt
      linarith
    simp [classifyEngaged, h3]
  · intro hcx hcy
    simp only [classifyEngaged, Bool.and_eq_true, decide_eq_true_eq]
    rw [hcx, hcy]
    refine ⟨⟨by nlinarith, by nlinarith⟩, by nlinarith⟩

/-- Witness for C1 at the spec's end-to-end example: frame 640x480, box
`(200, 100, 260, 160)` with center `(230, 130)` is engaged. -/
theorem C1_engagement_classifier_witness :
    classifyEngaged 640 480 ⟨200, 100, 260, 160⟩ = true :=
  ((C1_engagement_classifier ⟨200, 100, 260, 160⟩ 640 480 (by norm_num)
      (by norm_num)).1).mpr (by norm_num [centerX, centerY])

/-- Claim C2: per frame, `engaged_count ≤ n`; if `n > 0` the ratio equals
`engaged_count / n` and lies in `[0, 1]`; if `n = 0` the ratio is exactly
`0`, not an error. -/
theorem C2_engagement_ratio (w h : ℚ) (boxes : List Box) :
    engagedCount w h boxes ≤ boxes.length
    ∧ (0 < boxes.length →
        frameEngagement w h boxes =
          (engagedCount w h boxes : ℚ) / (boxes.length : ℚ)
        ∧ 0 ≤ frameEngagement w h boxes ∧ frameEngagement w h boxes ≤ 1)
    ∧ (boxes.length = 0 → frameEngagement w h boxes = 0) := by
  have hle : engagedCount w h boxes ≤ boxes.length := List.length_filter_le _ _
  refine ⟨hle, ?_, ?_⟩
  · intro hn
    have heq : frameEngagement w h boxes =
        (engagedCount w h boxes : ℚ) / (boxes.length : ℚ) := by
      simp only [frameEngagement, engagementRatioFn, if_pos hn]
    have hnpos : (0 : ℚ) < (boxes.length : ℚ) := by exact_mod_cast hn
    refine ⟨heq, ?_, ?_⟩
    · rw [heq]
      exact div_nonneg (by positivity) (le_of_lt hnpos)
    · rw [heq, div_le_one hnpos]
      exact_mod_cast hle
  · intro hn
    simp only [frameEngagement, engagementRatioFn, hn]
    norm_num

/-- Witness for C2 at the spec's end-to-end scenario: frame 640x480 with
boxes `(200,100,260,160)` and `(0,0,50,50)` gives ratio `1/2`. -/
theorem C2_engagement_ratio_witness :
    frameEngagement 640 480 [⟨200, 100, 260, 160⟩, ⟨0, 0, 50, 50⟩] = 1 / 2 := by
  have h :=
    (C2_engagement_ratio 640 480 [⟨200, 100, 260, 160⟩, ⟨0, 0, 50, 50⟩]).2.1
      (by decide)
  rw [h.1]
  norm_num [engagedCount, classifyEngaged, centerX, centerY]

/-- `deque(maxlen=30)`: the fixed capacity of the smoothing window. -/
def DEQUE_MAXLEN : ℕ := 30

/-- `engagement_history.append(r)`: append at the tail; when the deque is
already at capacity the head element is evicted first. -/
def dequePush (window : List ℚ) (x : ℚ) : List ℚ :=
  if window.length < DEQUE_MAXLEN then window ++ [x] else window.tail ++ [x]

/-- Push a whole sequence of values in order through the deque. -/
def pushAll (window : List ℚ) (xs : List ℚ) : List ℚ :=
  xs.foldl dequePush window

/-- `smooth_engagement = sum(history) / len(history) if history else 0.0`. -/
def currentAverage (window : List ℚ) : ℚ :=
  if window.isEmpty then 0 else window.sum / (window.length : ℚ)

/-- The deque after a sequence of pushes is the suffix of the concatenated
stream that fits in the capacity. -/
theorem pushAll_eq_drop (xs : List ℚ) :
    ∀ w : List ℚ, w.length ≤ DEQUE_MAXLEN →
      pushAll w xs = (w ++ xs).drop (w.length + xs.length - DEQUE_MAXLEN) := by
  induction xs with
  | nil =>
    intro w hw
    simp [pushAll, Nat.sub_eq_zero_of_le hw]
  | cons x xs ih =>
    intro w hw
    have hw30 : w.length ≤ 30 := by simpa [DEQUE_MAXLEN] using hw
    have hstep : pushAll w (x :: xs) = pushAll (dequePush w x) xs := rfl
    by_cases hlt : w.length < DEQUE_MAXLEN
    · have hlt30 : w.length < 30 := by simpa [DEQUE_MAXLEN] using hlt
      have hpush : dequePush w x = w ++ [x] := by simp [dequePush, hlt]
      rw [hstep, hpush, ih (w ++ [x])
        (by simp only [List.length_append, List.length_cons, List.length_nil,
              DEQUE_MAXLEN]; omega)]
      have harr : (w ++ [x]) ++ xs = w ++ x :: xs := by simp
      rw [harr]
      congr 1
      simp only [List.length_append, List.length_cons, List.length_nil,
        DEQUE_MAXLEN]
      omega
    · have h30 : w.length = DEQUE_MAXLEN := le_antisymm hw (Nat.le_of_not_lt hlt)
      have hpush : dequePush w x = w.tail ++ [x] := by simp [dequePush, hlt]
      cases w with
      | nil => simp [DEQUE_MAXLEN] at h30
      | cons a t =>
        have hlen : t.length = 29 := by
          have := h30
          simp only [List.length_cons, DEQUE_MAXLEN] at this
          omega
        rw [hstep, hpush]
        have htl : (a :: t).tail = t := rfl
        rw [htl, ih (t ++ [x])
          (by simp only [List.length_append, List.length_cons, List.length_nil,
                DEQUE_MAXLEN, hlen]; omega)]
        have h1 : (t ++ [x]) ++ xs = t ++ x :: xs := by simp
        rw [h1]
        have h2 : (t ++ [x]).length + xs.length - DEQUE_MAXLEN = xs.length := by
          simp only [List.length_append, List.length_cons, List.length_nil,
            DEQUE_MAXLEN, hlen]
          omega
        have h3 : (a :: t).length + (x :: xs).length - DEQUE_MAXLEN
            = xs.length + 1 := by
          simp only [List.length_cons, DEQUE_MAXLEN, hlen]
          omega
        rw [h2, h3]
        have h4 : (a :: t) ++ x :: xs = a :: (t ++ x :: xs) := rfl
        rw [h4, List.drop_succ_cons]

/-- Pushing at most a window's worth of values keeps all of them. -/
theorem pushAll_nil_of_le (xs : List ℚ) (h : xs.length ≤ DEQUE_MAXLEN) :
    pushAll [] xs = xs := by
  rw [pushAll_eq_drop xs [] (by simp)]
  simp [Nat.sub_eq_zero_of_le h]

/-- The window length never exceeds the capacity. -/
theorem pushAll_length_le (xs : List ℚ) :
    (pushAll [] xs).length ≤ DEQUE_MAXLEN := by
  rw [pushAll_eq_drop xs [] (by simp)]
  simp only [List.nil_append, List.length_drop, List.length_nil, Nat.zero_add]
  omega

/-- Claim C3: the smoother is a strict FIFO window of capacity 30: after
`k ≤ 30` pushes the average is the exact mean of the `k` values; after 31
pushes the window is exactly the last 30 values, so the first pushed value
is gone; length stays in `[0, 30]`; the empty average is `0`. -/
theorem C3_smoothing_window :
    (∀ xs : List ℚ, xs ≠ [] → xs.length ≤ 30 →
        currentAverage (pushAll [] xs) = xs.sum / (xs.length : ℚ))
    ∧ (∀ (x : ℚ) (xs : List ℚ), xs.length = 30 → pushAll [] (x :: xs) = xs)
    ∧ (∀ (x : ℚ) (xs : List ℚ), xs.length = 30 → x ∉ xs →
        x ∉ pushAll [] (x :: xs))
    ∧ (∀ xs : List ℚ, (pushAll [] xs).length ≤ 30)
    ∧ currentAverage [] = 0 := by
  have hdrop : ∀ (x : ℚ) (xs : List ℚ), xs.length = 30 →
      pushAll [] (x :: xs) = xs := by
    intro x xs hxs
    rw [pushAll_eq_drop (x :: xs) [] (by simp)]
    simp only [List.nil_append, List.length_nil, List.length_cons, Nat.zero_add, hxs]
    have : 30 + 1 - DEQUE_MAXLEN = 1 := by simp [DEQUE_MAXLEN]
    rw [this, List.drop_succ_cons, List.drop_zero]
  refine ⟨?_, hdrop, ?_, pushAll_length_le, by simp [currentAverage]⟩
  · intro xs hne hlen
    rw [pushAll_nil_of_le xs hlen]
    rw [currentAverage, if_neg (by simpa [List.isEmpty_iff] using hne)]
  · intro x xs hxs hx
    rw [hdrop x xs hxs]
    exact hx

/-- Witness for C3: pushing `[1/2, 1]` (two values) gives average `3/4`. -/
theorem C3_smoothing_window_witness :
    currentAverage (pushAll [] [(1 : ℚ) / 2, 1]) = 3 / 4 := by
  have h := C3_smoothing_window.1 [(1 : ℚ) / 2, 1] (by decide) (by decide)
  rw [h]
  norm_num [List.sum_cons, List.sum_nil]

/-- Sum of a list of nonnegative rationals is nonnegative. -/
theorem sum_nonneg_of_mem (l : List ℚ) (h : ∀ x ∈ l, 0 ≤ x) : 0 ≤ l.sum := by
  induction l with
  | nil => simp
  | cons a t ih =>
    simp only [List.sum_cons]
    have ha := h a (by simp)
    have ht := ih (fun x hx => h x (by simp [hx]))
    linarith

/-- Sum of a list of rationals each at most one is at most the length. -/
theorem sum_le_length_of_le_one (l : List ℚ) (h : ∀ x ∈ l, x ≤ 1) :
    l.sum ≤ (l.length : ℚ) := by
  induction l with
  | nil => simp
  | cons a t ih =>
    simp only [List.sum_cons, List.length_cons]
    have ha := h a (by simp)
    have ht := ih (fun x hx => h x (by simp [hx]))
    push_cast
    linarith

/-- The windowed average of values in `[0,1]` is in `[0,1]`. -/
theorem currentAverage_mem_unit (l : List ℚ) (h : ∀ x ∈ l, 0 ≤ x ∧ x ≤ 1) :
    0 ≤ currentAverage l ∧ currentAverage l ≤ 1 := by
  by_cases he : l.isEmpty = true
  · simp [currentAverage, he]
  · have hne : l ≠ [] := by simpa [List.isEmpty_iff] using he
    have hlen : 0 < l.length := List.length_pos.mpr hne
    have hlenq : (0 : ℚ) < (l.length : ℚ) := by exact_mod_cast hlen
    have h0 : 0 ≤ l.sum := sum_nonneg_of_mem l (fun x hx => (h x hx).1)
    have h1 : l.sum ≤ (l.length : ℚ) :=
      sum_le_length_of_le_one l (fun x hx => (h x hx).2)
    rw [currentAverage, if_neg he]
    exact ⟨div_nonneg h0 hlenq.le, (div_le_one hlenq).mpr h1⟩

/-- Claim C10: for every sequence of pushed per-frame ratios each in
`[0,1]`, the windowed average after the pushes is in `[0,1]` (and the
empty-window average `0` is too), so the displayed and logged engagement
never exceeds 100 percent. -/
theorem C10_smoothed_in_unit (xs : List ℚ) (h : ∀ x ∈ xs, 0 ≤ x ∧ x ≤ 1) :
    0 ≤ currentAverage (pushAll [] xs) ∧ currentAverage (pushAll [] xs) ≤ 1 := by
  have hwin : pushAll [] xs = xs.drop (xs.length - DEQUE_MAXLEN) := by
    have h2 := pushAll_eq_drop xs [] (by simp)
    simpa using h2
  refine currentAverage_mem_unit _ (fun x hx => ?_)
  rw [hwin] at hx
  exact h x (List.drop_subset _ _ hx)

/-- Witness for C10: pushing `[1/3]` yields an average in `[0,1]`. -/
theorem C10_smoothed_in_unit_witness :
    0 ≤ currentAverage (pushAll [] [(1 : ℚ) / 3])
    ∧ currentAverage (pushAll [] [(1 : ℚ) / 3]) ≤ 1 :=
  C10_smoothed_in_unit [(1 : ℚ) / 3] (by norm_num)

/-- `LOG_INTERVAL = 10` seconds between log entries. -/
def LOG_INTERVAL : ℚ := 10

/-- The logger state: `last_log_time` plus the lines appended so far. -/
structure LogState where
  lastLogTime : ℚ
  records : List String
deriving DecidableEq, Repr

/-- The periodic-logging block of the main loop:
`if now - last_log_time >= LOG_INTERVAL:` append one record and set
`last_log_time = now`; otherwise do nothing. -/
def maybeLog (st : LogState) (now : ℚ) (rec : String) : LogState :=
  if LOG_INTERVAL ≤ now - st.lastLogTime then
    { lastLogTime := now, records := st.records ++ [rec] }
  else st

/-- Claim C4: the logger is a pure time gate: when
`now - lastLogTime ≥ LOG_INTERVAL` exactly one record is appended and
`lastLogTime` becomes `now`, otherwise nothing changes; hence, starting
from a state where a record is due, two calls 5 seconds apart append
exactly one record and two calls 10 or more seconds apart append two. -/
theorem C4_logger_time_gate :
    (∀ (st : LogState) (now : ℚ) (rec : String),
        (LOG_INTERVAL ≤ now - st.lastLogTime →
          maybeLog st now rec =
            { lastLogTime := now, records := st.records ++ [rec] })
        ∧ (now - st.lastLogTime < LOG_INTERVAL → maybeLog st now rec = st))
    ∧ (∀ (st : LogState) (t1 : ℚ) (r1 r2 : String),
        LOG_INTERVAL ≤ t1 - st.lastLogTime →
          (maybeLog (maybeLog st t1 r1) (t1 + 5) r2).records
            = st.records ++ [r1])
    ∧ (∀ (st : LogState) (t1 t2 : ℚ) (r1 r2 : String),
        LOG_INTERVAL ≤ t1 - st.lastLogTime → t1 + 10 ≤ t2 →
          (maybeLog (maybeLog st t1 r1) t2 r2).records
            = st.records ++ [r1] ++ [r2]) := by
  have hfire : ∀ (st : LogState) (now : ℚ) (rec : String),
      LOG_INTERVAL ≤ now - st.lastLogTime →
        maybeLog st now rec =
          { lastLogTime := now, records := st.records ++ [rec] } := by
    intro st now rec h
    simp only [maybeLog]
    rw [if_pos h]
  have hskip : ∀ (st : LogState) (now : ℚ) (rec : String),
      now - st.lastLogTime < LOG_INTERVAL → maybeLog st now rec = st := by
    intro st now rec h
    simp [maybeLog, if_neg (not_le_of_lt h)]
  refine ⟨fun st now rec => ⟨hfire st now rec, hskip st now rec⟩, ?_, ?_⟩
  · intro st t1 r1 r2 h1
    rw [hfire st t1 r1 h1]
    rw [hskip _ (t1 + 5) r2 (by simp only [LOG_INTERVAL]; linarith)]
  · intro st t1 t2 r1 r2 h1 h2
    rw [hfire st t1 r1 h1]
    rw [hfire _ t2 r2 (by simp only [LOG_INTERVAL]; linarith)]

/-- Witness for C4: from `lastLogTime = 0`, calls at `t = 10` and
`t = 15` append exactly one record; a second call at `t = 20` instead
would append two. -/
theorem C4_logger_time_gate_witness :
    (maybeLog (maybeLog ⟨0, []⟩ 10 "a") 15 "b").records = ["a"]
    ∧ (maybeLog (maybeLog ⟨0, []⟩ 10 "a") 20 "b").records = ["a", "b"] := by
  constructor
  · have h := C4_logger_time_gate.2.1 ⟨0, []⟩ 10 "a" "b" (by norm_num [LOG_INTERVAL])
    rw [show (10 : ℚ) + 5 = 15 by norm_num] at h
    simpa using h
  · have h := C4_logger_time_gate.2.2 ⟨0, []⟩ 10 20 "a" "b"
      (by norm_num [LOG_INTERVAL]) (by norm_num)
    simpa using h

/-- `USE_GSTREAMER = True` in the configuration block. -/
def USE_GSTREAMER : Bool := true

/-- Which acquisition method produced the capture handle. -/
inductive Cam where
  | gstreamer
  | index0
deriving DecidableEq, Repr

/-- An acquisition attempt, in the order the code performs them. -/
inductive Attempt where
  | gst
  | index0
deriving DecidableEq, Repr

/-- `open_camera()`: when `USE_GSTREAMER`, try the GStreamer pipeline and
return its handle if it opens; otherwise (or when GStreamer is disabled)
try plain `VideoCapture(0)`; return `none` if every attempt fails.  The
second component records the attempts made, in order. -/
def open_camera (useGst gstOpens idx0Opens : Bool) :
    Option Cam × List Attempt :=
  if useGst then
    if gstOpens then (some Cam.gstreamer, [Attempt.gst])
    else
      if idx0Opens then (some Cam.index0, [Attempt.gst, Attempt.index0])
      else (none, [Attempt.gst, Attempt.index0])
  else
    if idx0Opens then (some Cam.index0, [Attempt.index0])
    else (none, [Attempt.index0])

/-- The startup outcome of `main`: `cap = open_camera(); if cap is None:
return` — the monitoring loop is entered only with an open camera. -/
inductive MainOutcome where
  | exitedBeforeLoop
  | enteredLoop (cam : Cam)
deriving DecidableEq, Repr

/-- The camera-acquisition phase of `main`. -/
def mainStartup (useGst gstOpens idx0Opens : Bool) : MainOutcome :=
  match (open_camera useGst gstOpens idx0Opens).1 with
  | none => MainOutcome.exitedBeforeLoop
  | some c => MainOutcome.enteredLoop c

/-- Claim C6: with the shipped configuration the preferred GStreamer
pipeline is tried first; if it opens, the index-0 fallback is never
attempted; if it reports not-opened, the fallback is attempted next, in
that order; and when both fail `open_camera` returns `none` and `main`
returns before entering the loop. -/
theorem C6_camera_fallback :
    (∀ idx0 : Bool, open_camera USE_GSTREAMER true idx0
        = (some Cam.gstreamer, [Attempt.gst]))
    ∧ (∀ idx0 : Bool, (open_camera USE_GSTREAMER false idx0).2
        = [Attempt.gst, Attempt.index0])
    ∧ open_camera USE_GSTREAMER false true
        = (some Cam.index0, [Attempt.gst, Attempt.index0])
    ∧ open_camera USE_GSTREAMER false false
        = (none, [Attempt.gst, Attempt.index0])
    ∧ mainStartup USE_GSTREAMER false false = MainOutcome.exitedBeforeLoop
    ∧ mainStartup USE_GSTREAMER true false
        = MainOutcome.enteredLoop Cam.gstreamer
    ∧ mainStartup USE_GSTREAMER false true
        = MainOutcome.enteredLoop Cam.index0 := by
  refine ⟨?_, ?_, rfl, rfl, rfl, rfl, rfl⟩
  · intro idx0
    cases idx0 <;> rfl
  · intro idx0
    cases idx0 <;> rfl

/-- The fixed header line written on first run:
`"timestamp,num_students,engagement"`. -/
def HEADER : String := "timestamp,num_students,engagement"

/-- Startup store handling: `if not os.path.exists(LOG_FILE):` create the
file with the header line; otherwise keep the existing content untouched
(the file is only ever opened in append mode afterwards). -/
def initLogFile (existing : Option (List String)) : List String :=
  match existing with
  | none => [HEADER]
  | some lines => lines

/-- Appending one record line to the store (`open(LOG_FILE, "a")`). -/
def appendRecord (store : List String) (line : String) : List String :=
  store ++ [line]

/-- The decimal digit character for `n < 10`. -/
def digitChar (n : ℕ) : Char := Char.ofNat (48 + n)

/-- Exactly three decimal digits with leading zeros, for `n < 1000`. -/
def pad3 (n : ℕ) : String :=
  String.mk [digitChar (n / 100), digitChar (n / 10 % 10), digitChar (n % 10)]

/-- Round to the nearest integer, ties to even — the rounding used by
Python's fixed-point `format`. -/
def roundHalfEven (q : ℚ) : ℤ :=
  let f := ⌊q⌋
  let r := q - (f : ℚ)
  if r < 1 / 2 then f
  else if 1 / 2 < r then f + 1
  else if f % 2 = 0 then f else f + 1

/-- `f"{x:.3f}"` for a nonnegative value: the integer part, a dot, and
exactly three fractional digits (value rounded to thousandths). -/
def formatFixed3 (q : ℚ) : String :=
  let m := (roundHalfEven (q * 1000)).toNat
  toString (m / 1000) ++ "." ++ pad3 (m % 1000)

/-- One data line of the log:
`f"{timestamp},{num_students},{smooth_engagement:.3f}"`. -/
def dataLine (timestamp : String) (numStudents : ℕ) (engagement : ℚ) : String :=
  timestamp ++ "," ++ toString numStudents ++ "," ++ formatFixed3 engagement

/-- Claim C7: on first run the store is created containing exactly the
header line before any data is appended; an existing store is never
rewritten, and appends only extend it; and every data record is one
comma-separated line of timestamp, plain integer count, and the
engagement with exactly three decimal digits. -/
theorem C7_log_store_format :
    initLogFile none = [HEADER]
    ∧ (∀ lines : List String, initLogFile (some lines) = lines)
    ∧ (∀ (store : List String) (line : String),
        appendRecord store line = store ++ [line])
    ∧ (∀ (store : List String) (line : String),
        (appendRecord store line).take store.length = store)
    ∧ (∀ (ts : String) (n : ℕ) (e : ℚ),
        dataLine ts n e = ts ++ "," ++ toString n ++ "," ++ formatFixed3 e)
    ∧ (∀ e : ℚ, ∃ ip fp : ℕ, fp < 1000
        ∧ formatFixed3 e = toString ip ++ "." ++ pad3 fp
        ∧ (pad3 fp).length = 3) := by
  refine ⟨rfl, fun _ => rfl, fun _ _ => rfl, ?_, fun _ _ _ => rfl, ?_⟩
  · intro store line
    simp [appendRecord]
  · intro e
    refine ⟨(roundHalfEven (e * 1000)).toNat / 1000,
      (roundHalfEven (e * 1000)).toNat % 1000, ?_, rfl, rfl⟩
    exact Nat.mod_lt _ (by norm_num)

/-- A frame: `h, w, _ = frame.shape` plus the person boxes the detector
returns for it. -/
structure Frame where
  w : ℚ
  h : ℚ
  boxes : List Box
deriving DecidableEq, Repr

/-- The mutable state of one run of `main` inside the loop: the smoothing
deque, the logger state, and whether `cap.release()` has run. -/
structure LoopState where
  window : List ℚ
  log : LogState
  released : Bool
deriving DecidableEq, Repr

/-- One iteration body of the main loop after a successful read: detect,
classify, push the ratio, recompute the smoothed value, and maybe log.
The log write (`with open(LOG_FILE, "a")`) has no surrounding handler in
the source, so an unavailable store surfaces as an `Except.error`. -/
def iterateBody (st : LoopState) (f : Frame) (now : ℚ) (ts : String)
    (storeAvailable : Bool) : Except String LoopState :=
  let n := f.boxes.length
  let ec := engagedCount f.w f.h f.boxes
  let r := engagementRatioFn ec n
  let window := dequePush st.window r
  let smooth := currentAverage window
  if LOG_INTERVAL ≤ now - st.log.lastLogTime then
    if storeAvailable then
      Except.ok
        { window := window,
          log := { lastLogTime := now,
                   records := appendRecord st.log.records (dataLine ts n smooth) },
          released := st.released }
    else Except.error "IOError"
  else Except.ok { st with window := window }

/-- One `cap.read()` outcome together with the ambient inputs of that
iteration: the wall clock, the timestamp string, whether the log store is
writable, and whether the operator pressed the quit key. -/
inductive ReadEvent where
  | frame (f : Frame) (now : ℚ) (ts : String) (storeAvailable : Bool)
      (quitKey : Bool)
  | readFail
deriving DecidableEq, Repr

/-- How a run of the `while True` loop ends. -/
inductive LoopOutcome where
  | running (st : LoopState)
  | exited (st : LoopState)
  | crashed (e : String)
deriving DecidableEq, Repr

/-- `cap.release()` at loop exit. -/
def releaseCap (st : LoopState) : LoopState := { st with released := true }

/-- The `while True` loop: a failed read breaks out (then the handle is
released); after a processed frame the quit key breaks out; an uncaught
error from the body propagates, ending the run without reaching
`cap.release()`. -/
def loopRun (st : LoopState) : List ReadEvent → LoopOutcome
  | [] => LoopOutcome.running st
  | ReadEvent.readFail :: _ => LoopOutcome.exited (releaseCap st)
  | ReadEvent.frame f now ts avail quitKey :: rest =>
    match iterateBody st f now ts avail with
    | Except.error e => LoopOutcome.crashed e
    | Except.ok st2 =>
      if quitKey then LoopOutcome.exited (releaseCap st2)
      else loopRun st2 rest

/-- Claim C8: a failed read after the source opened exits the loop on that
iteration: the failed frame is not processed (window and log are exactly
those of the pre-read state), no later event is looked at, and the handle
is released before the driver returns. -/
theorem C8_read_failure_graceful (st : LoopState) (rest : List ReadEvent) :
    loopRun st (ReadEvent.readFail :: rest)
      = LoopOutcome.exited
          { window := st.window, log := st.log, released := true } :=
  rfl

/-- Counterexample for C5 as stated: with the store unavailable at a due
log time, the embedded loop run crashes with the uncaught write error
instead of continuing to the next frame — the source has no handler
around `open(LOG_FILE, "a")`. -/
theorem C5_counterexample :
    loopRun ⟨[], ⟨0, [HEADER]⟩, false⟩
      [ReadEvent.frame ⟨640, 480, []⟩ 10 "2026-01-01T00:00:00" false false,
       ReadEvent.frame ⟨640, 480, []⟩ 11 "2026-01-01T00:00:01" true false]
      = LoopOutcome.crashed "IOError" := by
  simp only [loopRun, iterateBody]
  norm_num [LOG_INTERVAL]

/-- Claim C5 (amended): a persistence write failure at a due log time is
fatal: the error propagates uncaught, the record for the interval is lost,
no retry or queueing occurs, and the monitoring loop terminates without
processing any further frame. -/
theorem C5_write_failure_fatal (st : LoopState) (f : Frame) (now : ℚ)
    (ts : String) (quitKey : Bool) (rest : List ReadEvent)
    (hdue : LOG_INTERVAL ≤ now - st.log.lastLogTime) :
    loopRun st (ReadEvent.frame f now ts false quitKey :: rest)
      = LoopOutcome.crashed "IOError" := by
  simp only [loopRun, iterateBody]
  rw [if_pos hdue]
  simp

/-- Witness for C5's amended theorem at a concrete due state. -/
theorem C5_write_failure_fatal_witness :
    loopRun ⟨[], ⟨0, []⟩, false⟩
      [ReadEvent.frame ⟨100, 100, []⟩ 12 "ts0" false false]
      = LoopOutcome.crashed "IOError" :=
  C5_write_failure_fatal ⟨[], ⟨0, []⟩, false⟩ ⟨100, 100, []⟩ 12 "ts0" false []
    (by norm_num [LOG_INTERVAL])

/-- Claim C9: the classifier imposes no lower bound on the center's
vertical coordinate: whenever `0.33*w < cx < 0.66*w`, the verdict depends
only on `cy < 0.66*h`; in particular a center above the frame (`cy < 0`)
is still classified engaged. -/
theorem C9_no_lower_y_bound (b : Box) (w h : ℚ)
    (h1 : 0.33 * w < centerX b) (h2 : centerX b < 0.66 * w) :
    (classifyEngaged w h b = true ↔ centerY b < 0.66 * h)
    ∧ (0 < h → centerY b < 0 → classifyEngaged w h b = true) := by
  have hx1 : w * 0.33 < centerX b := by linarith
  have hx2 : centerX b < w * 0.66 := by linarith
  constructor
  · simp only [classifyEngaged, Bool.and_eq_true, decide_eq_true_eq]
    constructor
    · rintro ⟨_, h3⟩
      linarith
    · intro h3
      exact ⟨⟨hx1, hx2⟩, by linarith⟩
  · intro hh hcy
    simp only [classifyEngaged, Bool.and_eq_true, decide_eq_true_eq]
    have hpos : 0 < h * 0.66 := by nlinarith
    exact ⟨⟨hx1, hx2⟩, by linarith⟩

/-- Witness for C9: in a 640x480 frame a box with center `(255, -80)` —
above the frame — is classified engaged. -/
theorem C9_no_lower_y_bound_witness :
    classifyEngaged 640 480 ⟨250, -100, 260, -60⟩ = true :=
  (C9_no_lower_y_bound ⟨250, -100, 260, -60⟩ 640 480
      (by norm_num [centerX]) (by norm_num [centerX])).2
    (by norm_num) (by norm_num [centerY])
